import Mathlib

/-!
# Verification of the valentine-2026 jigsaw-puzzle core

Shallow embedding of the pure core of `src/src/App.tsx`:

* `getEdges` (grid model: per-cell edge codes, checkerboard parity),
* `edgePathTop` / `edgePathRight` / `edgePathBottom` / `edgePathLeft` and
  `buildPiecePath` (piece outline builder, SVG path commands embedded as a
  structured command list),
* `getPieceCoords` / `imagePattern` (texture mapper),
* `handleDrop` (placement state machine; the placement record is embedded
  as a total function `String → Bool`),
* `generateScatter` (rejection-sampling scatter placer; the stream of
  `Math.random()` samples is an explicit parameter `rng : Nat → ℚ`, one
  sample per call, consumed in call order).

Numeric values are embedded as `ℚ` (the source only manipulates small
decimal literals), slots and counters as `Nat`, edge codes as `Int`
(the source uses `0`, `1`, `-1`).
-/

namespace Valentine

/-- `ROWS` constant from the source. -/
def ROWS : Nat := 4

/-- `COLS` constant from the source. -/
def COLS : Nat := 4

/-- The `Piece` record of the source (`id`, `label`, `slot`). -/
structure Piece where
  id : String
  label : String
  slot : Nat
deriving DecidableEq

/-- The `pieces` array: 16 pieces `p1 … p16` with slots `0 … 15`. -/
def pieces : List Piece :=
  (List.range 16).map (fun index => ⟨"p" ++ toString (index + 1), toString (index + 1), index⟩)

/-- The `Edges` record: four edge codes, each `0` (flat), `1` or `-1`. -/
structure Edges where
  top : Int
  right : Int
  bottom : Int
  left : Int
deriving DecidableEq

/-- The checkerboard parity helper `tab(r,c)` inside `getEdges`:
`1` when `r + c` is even, `-1` otherwise. -/
def tab (r c : Nat) : Int := if (r + c) % 2 = 0 then 1 else -1

/-- `getEdges(row, col)` from the source. Boundary edges are `0`;
interior edges take signs from the shared parity sample so that the two
cells flanking an interior edge get opposite codes. -/
def getEdges (row col : Nat) : Edges :=
  { top := if row = 0 then 0 else tab (row - 1) col
    right := if col = COLS - 1 then 0 else tab row col
    bottom := if row = ROWS - 1 then 0 else -tab row col
    left := if col = 0 then 0 else -tab row (col - 1) }

/-- The spec's reading of the numeric edge codes: `1` is TAB, `-1` is
BLANK.  Two codes are complementary when one is TAB and the other BLANK. -/
def complementaryCodes (a b : Int) : Prop :=
  (a = 1 ∧ b = -1) ∨ (a = -1 ∧ b = 1)

instance (a b : Int) : Decidable (complementaryCodes a b) := by
  unfold complementaryCodes; infer_instance

/-! ## Texture mapper -/

/-- `getPieceCoords(slot)`: row is `slot / COLS` (floor), col is `slot % COLS`. -/
def getPieceCoords (slot : Nat) : Nat × Nat :=
  (slot / COLS, slot % COLS)

/-- The record returned by `imagePattern` (the SVG `pattern` attributes). -/
structure ImgPattern where
  id : String
  width : Int
  height : Int
  x : Int
  y : Int
deriving DecidableEq

/-- `imagePattern(piece)` from the source: a `100*COLS`-square tile whose
origin is shifted by `(-col*100, -row*100)` for the piece's home cell. -/
def imagePattern (piece : Piece) : ImgPattern :=
  let coords := getPieceCoords piece.slot
  let imageSize : Int := 100 * COLS
  { id := "img-" ++ piece.id
    width := imageSize
    height := imageSize
    x := -(coords.2 : Int) * 100
    y := -(coords.1 : Int) * 100 }

/-! ## Placement state machine -/

/-- The `piecesById` lookup (a record in the source, a `find?` here). -/
def piecesById (id : String) : Option Piece :=
  pieces.find? (fun piece => piece.id = id)

/-- `handleDrop(event, slotIndex)` from the source, with the drag payload
`id` and the placement record made explicit.  The record `placed` is a
total function (`undefined` in JS reads as `false`); empty drag data
(`!id`) is rejected first, then an already-placed piece, then an unknown
piece or a wrong slot; otherwise the single entry `id` is set to `true`. -/
def handleDrop (placed : String → Bool) (id : String) (slotIndex : Nat) : String → Bool :=
  if id = "" then placed
  else if placed id then placed
  else
    match piecesById id with
    | none => placed
    | some piece =>
        if piece.slot ≠ slotIndex then placed
        else fun key => if key = id then true else placed key

/-! ## Piece outline builder

The source emits SVG path strings.  We embed a path as a start point plus
a list of structured commands; `L x y` becomes `PathCmd.line x y` and
`A r r 0 0 sweep x y` (the only arc form emitted, via the `arc` helper)
becomes `PathCmd.arc r sweep x y`. -/

/-- `tabRadius` constant from the source. -/
def tabRadius : ℚ := 22

/-- `svgScale` constant from the source: `(100 + tabRadius * 2) / 100`. -/
def svgScale : ℚ := (100 + tabRadius * 2) / 100

/-- A structured SVG path command: a line-to, or a circular arc-to with
radius `radius` and sweep flag `sweep` (the source always emits
x-axis-rotation `0` and large-arc-flag `0`, so only the sweep flag is
kept). -/
inductive PathCmd where
  | line (x y : ℚ)
  | arc (radius : ℚ) (sweep : Nat) (x y : ℚ)
deriving DecidableEq

/-- `edgePathTop(edge)` from the source. -/
def edgePathTop (edge : Int) : List PathCmd :=
  if edge = 0 then [.line 100 0]
  else
    let r := tabRadius
    let sweep : Nat := if edge = 1 then 1 else 0
    [.line (50 - r) 0, .arc r sweep (50 + r) 0, .line 100 0]

/-- `edgePathRight(edge)` from the source. -/
def edgePathRight (edge : Int) : List PathCmd :=
  if edge = 0 then [.line 100 100]
  else
    let r := tabRadius
    let sweep : Nat := if edge = 1 then 0 else 1
    [.line 100 (50 - r), .arc r sweep 100 (50 + r), .line 100 100]

/-- `edgePathBottom(edge)` from the source. -/
def edgePathBottom (edge : Int) : List PathCmd :=
  if edge = 0 then [.line 0 100]
  else
    let r := tabRadius
    let sweep : Nat := if edge = 1 then 1 else 0
    [.line (50 + r) 100, .arc r sweep (50 - r) 100, .line 0 100]

/-- `edgePathLeft(edge)` from the source. -/
def edgePathLeft (edge : Int) : List PathCmd :=
  if edge = 0 then [.line 0 0]
  else
    let r := tabRadius
    let sweep : Nat := if edge = 1 then 0 else 1
    [.line 0 (50 + r), .arc r sweep 0 (50 - r), .line 0 0]

/-- A piece outline path: `M startX startY`, the commands, and the final
`Z`. -/
structure PiecePath where
  startX : ℚ
  startY : ℚ
  cmds : List PathCmd
  closedByZ : Bool
deriving DecidableEq

/-- `buildPiecePath(edges)` from the source:
`M 0 0`, then top, right, bottom, left edge paths, then `Z`. -/
def buildPiecePath (edges : Edges) : PiecePath :=
  { startX := 0
    startY := 0
    cmds := edgePathTop edges.top ++ edgePathRight edges.right ++
      edgePathBottom edges.bottom ++ edgePathLeft edges.left
    closedByZ := true }

/-- The end point of a single path command. -/
def cmdEnd : PathCmd → ℚ × ℚ
  | .line x y => (x, y)
  | .arc _ _ x y => (x, y)

/-- The current point after running a command list from a start point. -/
def pathEnd (start : ℚ × ℚ) : List PathCmd → ℚ × ℚ
  | [] => start
  | cmd :: rest => pathEnd (cmdEnd cmd) rest

/-- An arc segment extracted from a path: its start point (the current
point when the arc command is reached), radius, sweep flag and end
point. -/
structure ArcSeg where
  src : ℚ × ℚ
  radius : ℚ
  sweep : Nat
  dst : ℚ × ℚ
deriving DecidableEq

/-- All arc segments of a command list, threading the current point. -/
def arcsFrom (cur : ℚ × ℚ) : List PathCmd → List ArcSeg
  | [] => []
  | .line x y :: rest => arcsFrom (x, y) rest
  | .arc r s x y :: rest => ⟨cur, r, s, (x, y)⟩ :: arcsFrom (x, y) rest

/-- Midpoint of a semicircular SVG arc (SVG 1.1 arc semantics, specialised
to the case the source emits: the distance between the endpoints equals
the diameter `2r`, so the circle's center is the chord midpoint `m`).
Parametrising the circle as `m + r(cos θ, sin θ)` in SVG user coordinates
(y axis pointing down), sweep flag `1` traverses angles increasingly, so
the point halfway along the arc is `m + rot90 (src - m)` where
`rot90 (x, y) = (-y, x)`; sweep flag `0` traverses decreasingly, giving
`m - rot90 (src - m)`. -/
def arcMid (src dst : ℚ × ℚ) (sweep : Nat) : ℚ × ℚ :=
  let m : ℚ × ℚ := ((src.1 + dst.1) / 2, (src.2 + dst.2) / 2)
  let d : ℚ × ℚ := (src.1 - m.1, src.2 - m.2)
  let rot : ℚ × ℚ := (-d.2, d.1)
  if sweep = 1 then (m.1 + rot.1, m.2 + rot.2) else (m.1 - rot.1, m.2 - rot.2)

/-- The midpoints of all arcs of a command list run from `cur`. -/
def arcMids (cur : ℚ × ℚ) (cmds : List PathCmd) : List (ℚ × ℚ) :=
  (arcsFrom cur cmds).map (fun seg => arcMid seg.src seg.dst seg.sweep)

/-- A point strictly inside the 0..100 unit square of a cell. -/
def insideSquare (p : ℚ × ℚ) : Prop :=
  0 < p.1 ∧ p.1 < 100 ∧ 0 < p.2 ∧ p.2 < 100

instance (p : ℚ × ℚ) : Decidable (insideSquare p) := by
  unfold insideSquare; infer_instance

/-- A point strictly outside the 0..100 unit square of a cell. -/
def outsideSquare (p : ℚ × ℚ) : Prop :=
  p.1 < 0 ∨ 100 < p.1 ∨ p.2 < 0 ∨ 100 < p.2

instance (p : ℚ × ℚ) : Decidable (outsideSquare p) := by
  unfold outsideSquare; infer_instance

/-- A valid edge set in the sense of the spec: each code is FLAT (0),
TAB (1) or BLANK (-1). -/
def validEdges (e : Edges) : Prop :=
  (e.top = 0 ∨ e.top = 1 ∨ e.top = -1) ∧
  (e.right = 0 ∨ e.right = 1 ∨ e.right = -1) ∧
  (e.bottom = 0 ∨ e.bottom = 1 ∨ e.bottom = -1) ∧
  (e.left = 0 ∨ e.left = 1 ∨ e.left = -1)

instance (e : Edges) : Decidable (validEdges e) := by
  unfold validEdges; infer_instance

/-! ## Scatter placer

`generateScatter` draws from `Math.random()`; the embedding takes the
stream of raw uniform samples as an explicit function `rng : Nat → ℚ`
(sample index ↦ value in `[0,1)`), consumed in call order: candidate `j`
uses samples `3j`, `3j+1`, `3j+2` of the running counter for its `x`,
`y` and `tilt` (the three `rand` calls in source order).

`Math.hypot(dx, dy) >= minDistance` is embedded as
`minDistance^2 ≤ dx^2 + dy^2`, which is equivalent for the nonnegative
`minDistance` the source computes (both sides of the source comparison
are nonnegative). -/

/-- A scatter candidate: position offset and tilt. -/
structure Candidate where
  x : ℚ
  y : ℚ
  tilt : ℚ
deriving DecidableEq

/-- The sampling configuration computed at the top of `generateScatter`. -/
structure ScatterConfig where
  safeMinX : ℚ
  safeMaxX : ℚ
  safeMinY : ℚ
  safeMaxY : ℚ
  minDistance : ℚ
deriving DecidableEq

/-- The `rand(min, max)` helper, with the `Math.random()` value `u` made
explicit: `min + u * (max - min)`. -/
def rand (lo hi u : ℚ) : ℚ := lo + u * (hi - lo)

/-- One candidate record, sampled with the three raw samples at indices
`k`, `k+1`, `k+2`. -/
def mkCandidate (cfg : ScatterConfig) (rng : Nat → ℚ) (k : Nat) : Candidate :=
  { x := rand cfg.safeMinX cfg.safeMaxX (rng k)
    y := rand cfg.safeMinY cfg.safeMaxY (rng (k + 1))
    tilt := rand (-14) 14 (rng (k + 2)) }

/-- Squared Euclidean distance between two candidates' positions. -/
def dist2 (a b : Candidate) : ℚ := (a.x - b.x) ^ 2 + (a.y - b.y) ^ 2

/-- The `positions.every(...)` clearance test: the candidate keeps the
minimum distance to every already-accepted position. -/
def isClear (positions : List Candidate) (minDistance : ℚ) (c : Candidate) : Bool :=
  positions.all (fun pos => decide (minDistance ^ 2 ≤ dist2 pos c))

/-- The `maxAttempts` constant from the source. -/
def maxAttempts : Nat := 600

/-- The bounded `for attempt` loop for one piece: starting at sample
counter `k` with `fuel` attempts left, return the first clear candidate
(with the counter after it), or `none` (with the final counter) when the
budget runs out. -/
def placeOneAux (cfg : ScatterConfig) (rng : Nat → ℚ) (positions : List Candidate) :
    Nat → Nat → Option Candidate × Nat
  | k, 0 => (none, k)
  | k, fuel + 1 =>
      let c := mkCandidate cfg rng k
      if isClear positions cfg.minDistance c then (some c, k + 3)
      else placeOneAux cfg rng positions (k + 3) fuel

/-- The whole per-piece body: the attempt loop, then, when the budget is
exhausted (`!placed`), one more freshly sampled candidate pushed without
any clearance check. -/
def placeOne (cfg : ScatterConfig) (rng : Nat → ℚ) (positions : List Candidate) (k : Nat) :
    Candidate × Nat :=
  match placeOneAux cfg rng positions k maxAttempts with
  | (some c, k') => (c, k')
  | (none, k') => (mkCandidate cfg rng k', k' + 3)

/-- The `pieces.forEach` loop: `n` pieces left to place, accumulated
`positions` (pushed at the back, as `positions.push` does), sample
counter `k`. -/
def scatterAux (cfg : ScatterConfig) (rng : Nat → ℚ) :
    Nat → List Candidate → Nat → List Candidate
  | 0, positions, _ => positions
  | n + 1, positions, k =>
      let step := placeOne cfg rng positions k
      scatterAux cfg rng n (positions ++ [step.1]) step.2

/-- `generateScatter` proper, parametric in the configuration, the random
stream and the piece count (16 in the source). -/
def generateScatter (cfg : ScatterConfig) (rng : Nat → ℚ) (count : Nat) : List Candidate :=
  scatterAux cfg rng count [] 0

/-- `pieceSize`: `86` on narrow viewports (`window.innerWidth <= 700`),
else `96`. -/
def pieceSizeOf (innerWidth : ℚ) : ℚ := if innerWidth ≤ 700 then 86 else 96

/-- `pieceVisualSize = pieceSize * svgScale`. -/
def pieceVisualSizeOf (innerWidth : ℚ) : ℚ := pieceSizeOf innerWidth * svgScale

/-- `padding` constant from the source. -/
def padding : ℚ := 48

/-- `minX = padding + pieceVisualSize / 2 - centerX`. -/
def rawMinX (innerWidth centerX : ℚ) : ℚ :=
  padding + pieceVisualSizeOf innerWidth / 2 - centerX

/-- `maxX = window.innerWidth - padding - pieceVisualSize / 2 - centerX`. -/
def rawMaxX (innerWidth centerX : ℚ) : ℚ :=
  innerWidth - padding - pieceVisualSizeOf innerWidth / 2 - centerX

/-- `minY = padding + pieceVisualSize / 2 - centerY`. -/
def rawMinY (innerWidth centerY : ℚ) : ℚ :=
  padding + pieceVisualSizeOf innerWidth / 2 - centerY

/-- `maxY = window.innerHeight - padding - pieceVisualSize / 2 - centerY`. -/
def rawMaxY (innerWidth innerHeight centerY : ℚ) : ℚ :=
  innerHeight - padding - pieceVisualSizeOf innerWidth / 2 - centerY

/-- The sampling configuration computed by `generateScatter` for a given
viewport (`window.innerWidth`, `window.innerHeight`) and stage center
(`centerX`, `centerY`): each axis range is clamped to its midpoint when
inverted (`min > max`), and `minDistance = pieceVisualSize * 1.1`. -/
def mkConfig (innerWidth innerHeight centerX centerY : ℚ) : ScatterConfig :=
  { safeMinX := if rawMinX innerWidth centerX ≤ rawMaxX innerWidth centerX then
      rawMinX innerWidth centerX
    else (rawMinX innerWidth centerX + rawMaxX innerWidth centerX) / 2
    safeMaxX := if rawMinX innerWidth centerX ≤ rawMaxX innerWidth centerX then
      rawMaxX innerWidth centerX
    else (rawMinX innerWidth centerX + rawMaxX innerWidth centerX) / 2
    safeMinY := if rawMinY innerWidth centerY ≤ rawMaxY innerWidth innerHeight centerY then
      rawMinY innerWidth centerY
    else (rawMinY innerWidth centerY + rawMaxY innerWidth innerHeight centerY) / 2
    safeMaxY := if rawMinY innerWidth centerY ≤ rawMaxY innerWidth innerHeight centerY then
      rawMaxY innerWidth innerHeight centerY
    else (rawMinY innerWidth centerY + rawMaxY innerWidth innerHeight centerY) / 2
    minDistance := pieceVisualSizeOf innerWidth * (11 / 10) }

/-- Derived observation (not part of the source): the run stays within the
attempt budget, i.e. every piece's attempt loop finds a clear candidate
before its 600 attempts run out. -/
def budgetOk (cfg : ScatterConfig) (rng : Nat → ℚ) :
    Nat → List Candidate → Nat → Bool
  | 0, _, _ => true
  | n + 1, positions, k =>
      match placeOneAux cfg rng positions k maxAttempts with
      | (some c, k') => budgetOk cfg rng n (positions ++ [c]) k'
      | (none, _) => false

/-! ## Grid model theorems -/

/-- C1: for horizontally adjacent cells the right/left edge codes across
the shared edge are complementary (one TAB `1`, one BLANK `-1`), and
likewise bottom/top for vertically adjacent cells. -/
theorem C1_adjacent_edges_complementary (r c : Nat) (hr : r < ROWS) (hc : c < COLS) :
    (c + 1 < COLS →
      complementaryCodes (getEdges r c).right (getEdges r (c + 1)).left) ∧
    (r + 1 < ROWS →
      complementaryCodes (getEdges r c).bottom (getEdges (r + 1) c).top) := by
  simp only [ROWS, COLS] at hr hc
  interval_cases r <;> interval_cases c <;> decide

/-- Witness for `C1_adjacent_edges_complementary` at the concrete cell
`(0,0)` and its two neighbours. -/
theorem C1_witness :
    complementaryCodes (getEdges 0 0).right (getEdges 0 1).left ∧
    complementaryCodes (getEdges 0 0).bottom (getEdges 1 0).top :=
  ⟨(C1_adjacent_edges_complementary 0 0 (by decide) (by decide)).1 (by decide),
   (C1_adjacent_edges_complementary 0 0 (by decide) (by decide)).2 (by decide)⟩

/-- C4: each boundary-facing edge of a valid cell is FLAT (`0`), and each
interior-facing edge is TAB (`1`) or BLANK (`-1`), never FLAT. -/
theorem C4_boundary_flat_interior_tabbed (r c : Nat) (hr : r < ROWS) (hc : c < COLS) :
    ((r = 0 → (getEdges r c).top = 0) ∧
     (r = ROWS - 1 → (getEdges r c).bottom = 0) ∧
     (c = 0 → (getEdges r c).left = 0) ∧
     (c = COLS - 1 → (getEdges r c).right = 0)) ∧
    ((r ≠ 0 → (getEdges r c).top = 1 ∨ (getEdges r c).top = -1) ∧
     (r ≠ ROWS - 1 → (getEdges r c).bottom = 1 ∨ (getEdges r c).bottom = -1) ∧
     (c ≠ 0 → (getEdges r c).left = 1 ∨ (getEdges r c).left = -1) ∧
     (c ≠ COLS - 1 → (getEdges r c).right = 1 ∨ (getEdges r c).right = -1)) := by
  simp only [ROWS, COLS] at hr hc ⊢
  interval_cases r <;> interval_cases c <;> decide

/-- Witness for `C4_boundary_flat_interior_tabbed` at the corner cell
`(0,0)`: two FLAT boundary edges, two non-FLAT interior edges. -/
theorem C4_witness :
    (getEdges 0 0).top = 0 ∧ (getEdges 0 0).left = 0 ∧
    ((getEdges 0 0).right = 1 ∨ (getEdges 0 0).right = -1) ∧
    ((getEdges 0 0).bottom = 1 ∨ (getEdges 0 0).bottom = -1) :=
  ⟨(C4_boundary_flat_interior_tabbed 0 0 (by decide) (by decide)).1.1 rfl,
   (C4_boundary_flat_interior_tabbed 0 0 (by decide) (by decide)).1.2.2.1 rfl,
   (C4_boundary_flat_interior_tabbed 0 0 (by decide) (by decide)).2.2.2.2 (by decide),
   (C4_boundary_flat_interior_tabbed 0 0 (by decide) (by decide)).2.2.1 (by decide)⟩

/-! ## Placement state machine theorems -/

/-- No piece of the concrete puzzle has an empty id. -/
lemma piecesById_empty : piecesById "" = none := by decide

/-- `handleDrop` is a no-op (returns the placement record unchanged) when
the piece is unknown, already placed, or dropped on the wrong slot. -/
lemma handleDrop_eq_self (placed : String → Bool) (id : String) (slot : Nat)
    (h : piecesById id = none ∨ placed id = true ∨
      ∀ p : Piece, piecesById id = some p → p.slot ≠ slot) :
    handleDrop placed id slot = placed := by
  unfold handleDrop
  split
  · rfl
  split
  · rfl
  next hplaced =>
    rcases h with hnone | hpl | hslot
    · rw [hnone]
    · exact absurd hpl hplaced
    · rcases hfind : piecesById id with _ | p
      · rfl
      · simp [hslot p hfind]

/-- `handleDrop` marks the dropped piece placed when it is known, not yet
placed, and dropped on its home slot. -/
lemma handleDrop_sets (placed : String → Bool) (id : String) (slot : Nat) (p : Piece)
    (hp : piecesById id = some p) (hpl : placed id = false) (hs : p.slot = slot) :
    handleDrop placed id slot id = true := by
  have hid : ¬id = "" := by
    intro h
    rw [h, piecesById_empty] at hp
    exact Option.noConfusion hp
  simp [handleDrop, hid, hpl, hp, hs]

/-- C2: `attemptPlace(pieceId, targetSlot)` (the pure core of
`handleDrop`) marks the piece placed exactly when the id names a known
piece that is not yet placed and the target slot is its home slot; in
every other case the whole placement record is returned unchanged; and a
repeated call is always a no-op on top of the first. -/
theorem C2_attemptPlace_guarded (placed : String → Bool) (id : String) (slot : Nat) :
    (∀ p : Piece, piecesById id = some p → placed id = false → p.slot = slot →
      handleDrop placed id slot id = true) ∧
    ((piecesById id = none ∨ placed id = true ∨
        ∀ p : Piece, piecesById id = some p → p.slot ≠ slot) →
      handleDrop placed id slot = placed) ∧
    handleDrop (handleDrop placed id slot) id slot = handleDrop placed id slot := by
  refine ⟨fun p hp hpl hs => handleDrop_sets placed id slot p hp hpl hs,
    handleDrop_eq_self placed id slot, ?_⟩
  rcases hfind : piecesById id with _ | p
  · exact handleDrop_eq_self _ id slot (Or.inl hfind)
  · by_cases hslot : p.slot = slot
    · by_cases hpl : placed id = true
      · have e := handleDrop_eq_self placed id slot (Or.inr (Or.inl hpl))
        rw [e]
        exact e
      · have hT : handleDrop placed id slot id = true :=
          handleDrop_sets placed id slot p hfind (by simpa using hpl) hslot
        exact handleDrop_eq_self _ id slot (Or.inr (Or.inl hT))
    · have hnoop : handleDrop placed id slot = placed :=
        handleDrop_eq_self placed id slot
          (Or.inr (Or.inr (fun q hq => by
            rw [hfind] at hq
            cases hq
            exact hslot)))
      rw [hnoop]
      exact hnoop

/-- Witness for `C2_attemptPlace_guarded`: dropping `p1` on slot `0`
succeeds from the all-unplaced state; on a fully placed record the drop
is a no-op; and the successful drop is idempotent. -/
theorem C2_witness :
    handleDrop (fun _ => false) "p1" 0 "p1" = true ∧
    handleDrop (fun _ => true) "p1" 0 = (fun _ => true) ∧
    handleDrop (handleDrop (fun _ => false) "p1" 0) "p1" 0 =
      handleDrop (fun _ => false) "p1" 0 :=
  ⟨(C2_attemptPlace_guarded (fun _ => false) "p1" 0).1 ⟨"p1", "1", 0⟩ (by decide) rfl rfl,
   (C2_attemptPlace_guarded (fun _ => true) "p1" 0).2.1 (Or.inr (Or.inl rfl)),
   (C2_attemptPlace_guarded (fun _ => false) "p1" 0).2.2⟩

/-- C10: `handleDrop` never changes the placement flag of any piece other
than the dropped one (in particular this holds for a successful drop). -/
theorem C10_frame (placed : String → Bool) (id : String) (slot : Nat) (key : String)
    (hk : key ≠ id) : handleDrop placed id slot key = placed key := by
  unfold handleDrop
  split
  · rfl
  split
  · rfl
  rcases hfind : piecesById id with _ | p
  · simp only [hfind]
  · simp only [hfind]
    by_cases hs : p.slot ≠ slot
    · simp [hs]
    · simp [hs, hk]

/-- Witness for `C10_frame`: a successful drop of `p1` leaves `p2`'s flag
untouched. -/
theorem C10_witness :
    "p2" ≠ "p1" ∧ handleDrop (fun _ => false) "p1" 0 "p2" = false :=
  ⟨by decide, C10_frame (fun _ => false) "p1" 0 "p2" (by decide)⟩

/-! ## Texture mapper theorem -/

/-- C6: for a piece whose home slot decomposes as `row = slot / COLS`,
`col = slot % COLS`, the image pattern's origin is exactly
`(-col*100, -row*100)` and its size is `100*COLS` on each axis. -/
theorem C6_texture_origin (id label : String) (slot : Nat) (_hslot : slot < ROWS * COLS) :
    (imagePattern ⟨id, label, slot⟩).x = -((slot % COLS : Nat) : Int) * 100 ∧
    (imagePattern ⟨id, label, slot⟩).y = -((slot / COLS : Nat) : Int) * 100 ∧
    (imagePattern ⟨id, label, slot⟩).width = 100 * COLS ∧
    (imagePattern ⟨id, label, slot⟩).height = 100 * COLS :=
  ⟨rfl, rfl, rfl, rfl⟩

/-- Witness for `C6_texture_origin` at slot `6` (row 1, col 2): origin
`(-200, -100)`, size `400`. -/
theorem C6_witness :
    6 < ROWS * COLS ∧
    ((imagePattern ⟨"p7", "7", 6⟩).x = -((6 % COLS : Nat) : Int) * 100 ∧
     (imagePattern ⟨"p7", "7", 6⟩).y = -((6 / COLS : Nat) : Int) * 100 ∧
     (imagePattern ⟨"p7", "7", 6⟩).width = 100 * COLS ∧
     (imagePattern ⟨"p7", "7", 6⟩).height = 100 * COLS) :=
  ⟨by decide, C6_texture_origin "p7" "7" 6 (by decide)⟩

/-! ## Outline builder theorems -/

/-- Running a concatenated command list threads the current point. -/
lemma pathEnd_append (s : ℚ × ℚ) (xs ys : List PathCmd) :
    pathEnd s (xs ++ ys) = pathEnd (pathEnd s xs) ys := by
  induction xs generalizing s with
  | nil => rfl
  | cons cmd rest ih => simp [pathEnd, ih]

/-- Whatever the edge code, the left edge path ends at the origin. -/
lemma pathEnd_edgePathLeft (s : ℚ × ℚ) (e : Int) : pathEnd s (edgePathLeft e) = (0, 0) := by
  unfold edgePathLeft
  split <;> rfl

/-- Whatever the edge code, the top edge path ends at the top-right
corner. -/
lemma pathEnd_edgePathTop (s : ℚ × ℚ) (e : Int) : pathEnd s (edgePathTop e) = (100, 0) := by
  unfold edgePathTop
  split <;> rfl

/-- Whatever the edge code, the right edge path ends at the bottom-right
corner. -/
lemma pathEnd_edgePathRight (s : ℚ × ℚ) (e : Int) :
    pathEnd s (edgePathRight e) = (100, 100) := by
  unfold edgePathRight
  split <;> rfl

/-- Whatever the edge code, the bottom edge path ends at the bottom-left
corner. -/
lemma pathEnd_edgePathBottom (s : ℚ × ℚ) (e : Int) :
    pathEnd s (edgePathBottom e) = (0, 100) := by
  unfold edgePathBottom
  split <;> rfl

/-- C5: for every valid edge set, `buildPiecePath` starts at the
top-left corner `(0,0)` and its command list ends back at `(0,0)`: the
outline is a closed path. -/
theorem C5_outline_closed (e : Edges) (_h : validEdges e) :
    (buildPiecePath e).startX = 0 ∧ (buildPiecePath e).startY = 0 ∧
    pathEnd ((buildPiecePath e).startX, (buildPiecePath e).startY)
      (buildPiecePath e).cmds = (0, 0) := by
  refine ⟨rfl, rfl, ?_⟩
  show pathEnd (0, 0)
    (edgePathTop e.top ++ edgePathRight e.right ++ edgePathBottom e.bottom ++
      edgePathLeft e.left) = (0, 0)
  rw [pathEnd_append, pathEnd_edgePathLeft]

/-- Witness for `C5_outline_closed` at the edge set of cell `(0,0)`. -/
theorem C5_witness :
    validEdges (getEdges 0 0) ∧
    ((buildPiecePath (getEdges 0 0)).startX = 0 ∧
     (buildPiecePath (getEdges 0 0)).startY = 0 ∧
     pathEnd ((buildPiecePath (getEdges 0 0)).startX, (buildPiecePath (getEdges 0 0)).startY)
       (buildPiecePath (getEdges 0 0)).cmds = (0, 0)) :=
  ⟨by decide, C5_outline_closed (getEdges 0 0) (by decide)⟩

/-- Extracting arcs from a concatenation threads the current point
through the first part. -/
lemma arcsFrom_append (cur : ℚ × ℚ) (xs ys : List PathCmd) :
    arcsFrom cur (xs ++ ys) = arcsFrom cur xs ++ arcsFrom (pathEnd cur xs) ys := by
  induction xs generalizing cur with
  | nil => rfl
  | cons cmd rest ih => cases cmd <;> simp [arcsFrom, pathEnd, cmdEnd, ih]

/-- The arc midpoints of a whole piece outline, by edge: each edge's arcs
are traversed from the corner where that edge starts. -/
lemma arcMids_buildPiecePath (e : Edges) :
    arcMids (0, 0) (buildPiecePath e).cmds =
      arcMids (0, 0) (edgePathTop e.top) ++
      arcMids (100, 0) (edgePathRight e.right) ++
      arcMids (100, 100) (edgePathBottom e.bottom) ++
      arcMids (0, 100) (edgePathLeft e.left) := by
  show arcMids (0, 0)
    (edgePathTop e.top ++ edgePathRight e.right ++ edgePathBottom e.bottom ++
      edgePathLeft e.left) = _
  unfold arcMids
  rw [arcsFrom_append, arcsFrom_append, arcsFrom_append, pathEnd_edgePathTop,
    pathEnd_append, pathEnd_edgePathTop, pathEnd_edgePathRight, pathEnd_append,
    pathEnd_append, pathEnd_edgePathTop, pathEnd_edgePathRight, pathEnd_edgePathBottom,
    List.map_append, List.map_append, List.map_append]

/-- C3 counterexample: take the edge set with code `1` (TAB, the sign the
spec's `tab` parity function assigns) on all four edges.  The arc that
`buildPiecePath` emits for the right edge passes through `(78, 50)`,
which is strictly inside the 0..100 unit square and not outside it —
so a TAB edge's arc does **not** bulge away from the cell interior on
all four orientations.  (The top arc `(50, -22)` and bottom arc
`(50, 122)` do bulge outside; the right `(78, 50)` and left `(22, 50)`
arcs carve inside.) -/
theorem C3_counterexample :
    arcMids (0, 0) (buildPiecePath ⟨1, 1, 1, 1⟩).cmds =
      [(50, -22), (78, 50), (50, 122), (22, 50)] ∧
    insideSquare (78, 50) ∧ ¬outsideSquare (78, 50) := by
  refine ⟨?_, by norm_num [insideSquare], by norm_num [outsideSquare]⟩
  rw [arcMids_buildPiecePath]
  simp [arcMids, arcsFrom, edgePathTop, edgePathRight, edgePathBottom, edgePathLeft,
    arcMid, tabRadius]
  norm_num

/-- C3 as amended: the sweep flags chosen by the source make the code `1`
(TAB) arc bulge outside the unit square on the top and bottom edges but
carve strictly inside it on the right and left edges; code `-1` (BLANK)
behaves the opposite way on each edge.  (Outlines of adjacent cells still
coincide along shared edges, because the codes flanking an interior edge
always have opposite signs.) -/
theorem C3_amended_sweep_orientation (e : Int) (h : e = 1 ∨ e = -1) :
    ((arcMids (0, 0) (edgePathTop e)).length = 1 ∧
      ∀ m ∈ arcMids (0, 0) (edgePathTop e),
        (outsideSquare m ↔ e = 1) ∧ (insideSquare m ↔ e = -1)) ∧
    ((arcMids (100, 0) (edgePathRight e)).length = 1 ∧
      ∀ m ∈ arcMids (100, 0) (edgePathRight e),
        (insideSquare m ↔ e = 1) ∧ (outsideSquare m ↔ e = -1)) ∧
    ((arcMids (100, 100) (edgePathBottom e)).length = 1 ∧
      ∀ m ∈ arcMids (100, 100) (edgePathBottom e),
        (outsideSquare m ↔ e = 1) ∧ (insideSquare m ↔ e = -1)) ∧
    ((arcMids (0, 100) (edgePathLeft e)).length = 1 ∧
      ∀ m ∈ arcMids (0, 100) (edgePathLeft e),
        (insideSquare m ↔ e = 1) ∧ (outsideSquare m ↔ e = -1)) := by
  rcases h with h | h
  all_goals subst h
  all_goals
    simp [arcMids, arcsFrom, edgePathTop, edgePathRight, edgePathBottom, edgePathLeft,
      arcMid, tabRadius, insideSquare, outsideSquare]
  all_goals norm_num

/-- Witness for `C3_amended_sweep_orientation` at code `1`: the top arc's
midpoint is outside the square, the right arc's midpoint inside. -/
theorem C3_amended_witness : outsideSquare (50, -22) ∧ insideSquare (78, 50) := by
  constructor
  · refine ((C3_amended_sweep_orientation 1 (Or.inl rfl)).1.2 (50, -22) ?_).1.mpr rfl
    simp [arcMids, arcsFrom, edgePathTop, arcMid, tabRadius]
  · refine ((C3_amended_sweep_orientation 1 (Or.inl rfl)).2.1.2 (78, 50) ?_).1.mpr rfl
    simp [arcMids, arcsFrom, edgePathRight, arcMid, tabRadius]
    norm_num

/-! ## Scatter placer theorems -/

/-- `isClear` unpacked: the candidate keeps the squared minimum distance
to every accepted position. -/
lemma isClear_iff (positions : List Candidate) (d : ℚ) (c : Candidate) :
    isClear positions d c = true ↔ ∀ pos ∈ positions, d ^ 2 ≤ dist2 pos c := by
  simp [isClear, List.all_eq_true]

/-- The scatter loop always adds exactly one entry per remaining piece. -/
lemma scatterAux_length (cfg : ScatterConfig) (rng : Nat → ℚ) :
    ∀ (n : Nat) (positions : List Candidate) (k : Nat),
      (scatterAux cfg rng n positions k).length = positions.length + n := by
  intro n
  induction n with
  | zero => intro positions k; simp [scatterAux]
  | succ n ih =>
      intro positions k
      unfold scatterAux
      rw [ih]
      simp
      omega

/-- A candidate returned within the attempt budget passed the clearance
test. -/
lemma placeOneAux_some_clear (cfg : ScatterConfig) (rng : Nat → ℚ)
    (positions : List Candidate) :
    ∀ (fuel k : Nat) (c : Candidate) (k' : Nat),
      placeOneAux cfg rng positions k fuel = (some c, k') →
      isClear positions cfg.minDistance c = true := by
  intro fuel
  induction fuel with
  | zero => intro k c k' h; simp [placeOneAux] at h
  | succ fuel ih =>
      intro k c k' h
      unfold placeOneAux at h
      by_cases hc : isClear positions cfg.minDistance (mkCandidate cfg rng k) = true
      · rw [if_pos hc] at h
        obtain ⟨h1, h2⟩ := Prod.mk.injEq .. ▸ h
        cases Option.some.inj h1
        exact hc
      · rw [if_neg hc] at h
        exact ih _ _ _ h

/-- A candidate returned within the attempt budget is the first sampled
candidate that passes the clearance test: it was sampled at some attempt
`j`, it is clear, and every earlier attempt's candidate was rejected. -/
lemma placeOneAux_some_first (cfg : ScatterConfig) (rng : Nat → ℚ)
    (positions : List Candidate) :
    ∀ (fuel k : Nat) (c : Candidate) (k' : Nat),
      placeOneAux cfg rng positions k fuel = (some c, k') →
      ∃ j, j < fuel ∧ c = mkCandidate cfg rng (k + 3 * j) ∧ k' = k + 3 * j + 3 ∧
        isClear positions cfg.minDistance c = true ∧
        ∀ i, i < j → isClear positions cfg.minDistance (mkCandidate cfg rng (k + 3 * i)) = false := by
  intro fuel
  induction fuel with
  | zero => intro k c k' h; simp [placeOneAux] at h
  | succ fuel ih =>
      intro k c k' h
      unfold placeOneAux at h
      by_cases hc : isClear positions cfg.minDistance (mkCandidate cfg rng k) = true
      · rw [if_pos hc] at h
        obtain ⟨h1, h2⟩ := Prod.mk.injEq .. ▸ h
        cases Option.some.inj h1
        exact ⟨0, Nat.succ_pos _, by simp, by omega, hc,
          fun i hi => absurd hi (Nat.not_lt_zero i)⟩
      · rw [if_neg hc] at h
        obtain ⟨j, hj, hcand, hk', hclear, hfirst⟩ := ih (k + 3) c k' h
        have harith : k + 3 + 3 * j = k + 3 * (j + 1) := by ring
        refine ⟨j + 1, Nat.succ_lt_succ hj, by rw [hcand, harith], by omega, hclear, ?_⟩
        intro i hi
        cases i with
        | zero => simpa using (Bool.not_eq_true _).mp hc
        | succ i =>
            have := hfirst i (by omega)
            have harith2 : k + 3 + 3 * i = k + 3 * (i + 1) := by ring
            rwa [harith2] at this

/-- When the attempt loop succeeds, `placeOne` returns its result. -/
lemma placeOne_of_some (cfg : ScatterConfig) (rng : Nat → ℚ) (positions : List Candidate)
    (k : Nat) (c : Candidate) (k' : Nat)
    (h : placeOneAux cfg rng positions k maxAttempts = (some c, k')) :
    placeOne cfg rng positions k = (c, k') := by
  unfold placeOne
  rw [h]

/-- Invariant of the scatter loop: when every piece is accepted within
budget, pairwise squared minimum separation is preserved. -/
lemma scatterAux_pairwise (cfg : ScatterConfig) (rng : Nat → ℚ) :
    ∀ (n : Nat) (positions : List Candidate) (k : Nat),
      budgetOk cfg rng n positions k = true →
      List.Pairwise (fun a b => cfg.minDistance ^ 2 ≤ dist2 a b) positions →
      List.Pairwise (fun a b => cfg.minDistance ^ 2 ≤ dist2 a b)
        (scatterAux cfg rng n positions k) := by
  intro n
  induction n with
  | zero => intro positions k _ hp; simpa [scatterAux] using hp
  | succ n ih =>
      intro positions k hb hp
      unfold budgetOk at hb
      unfold scatterAux
      rcases haux : placeOneAux cfg rng positions k maxAttempts with ⟨oc, k'⟩
      rw [haux] at hb
      cases oc with
      | none => simp at hb
      | some c =>
          rw [placeOne_of_some cfg rng positions k c k' haux]
          apply ih _ _ hb
          rw [List.pairwise_append]
          refine ⟨hp, List.pairwise_singleton _ _, ?_⟩
          intro a ha b hbmem
          rw [List.mem_singleton] at hbmem
          subst hbmem
          exact (isClear_iff positions cfg.minDistance b).mp
            (placeOneAux_some_clear cfg rng positions maxAttempts k b k' haux) a ha

/-- C7: a position accepted within the per-piece attempt budget is the
first sampled candidate clearing the minimum separation against every
previously accepted position (earlier candidates all failed the test);
and when every piece of a run is accepted within budget, the returned
positions are pairwise at least `minDistance` apart (stated on squared
distances, equivalent for the nonnegative `minDistance` the source
computes as `pieceVisualSize * 1.1`). -/
theorem C7_scatter_min_separation (cfg : ScatterConfig) (rng : Nat → ℚ)
    (positions : List Candidate) (k fuel : Nat) (c : Candidate) (k' : Nat) (count : Nat)
    (h1 : placeOneAux cfg rng positions k fuel = (some c, k'))
    (h2 : budgetOk cfg rng count [] 0 = true) :
    (∃ j, j < fuel ∧ c = mkCandidate cfg rng (k + 3 * j) ∧ k' = k + 3 * j + 3 ∧
        isClear positions cfg.minDistance c = true ∧
        ∀ i, i < j →
          isClear positions cfg.minDistance (mkCandidate cfg rng (k + 3 * i)) = false) ∧
    List.Pairwise (fun a b => cfg.minDistance ^ 2 ≤ dist2 a b)
      (generateScatter cfg rng count) :=
  ⟨placeOneAux_some_first cfg rng positions fuel k c k' h1,
   scatterAux_pairwise cfg rng count [] 0 h2 List.Pairwise.nil⟩

/-- C8: when the attempt budget is exhausted without a clear candidate,
the per-piece step accepts one more freshly sampled candidate with no
clearance check (so the accepted entry is the last candidate sampled for
that piece); and the scatter loop never fails: it returns exactly one
entry per piece for every configuration, random stream and piece count. -/
theorem C8_scatter_total (cfg : ScatterConfig) (rng : Nat → ℚ) (positions : List Candidate)
    (k k' : Nat) (h : placeOneAux cfg rng positions k maxAttempts = (none, k')) :
    placeOne cfg rng positions k = (mkCandidate cfg rng k', k' + 3) ∧
    ∀ (cfg' : ScatterConfig) (rng' : Nat → ℚ) (count : Nat),
      (generateScatter cfg' rng' count).length = count := by
  constructor
  · unfold placeOne
    rw [h]
  · intro cfg' rng' count
    unfold generateScatter
    simpa using scatterAux_length cfg' rng' count [] 0

/-- C9: when the viewport is too small on an axis (the inset maximum
falls below the inset minimum), the sampling range of that axis collapses
to the midpoint of the computed min and max — a degenerate but
well-defined interval — and the scatter run still returns one entry per
piece. -/
theorem C9_degenerate_viewport (innerWidth innerHeight centerX centerY : ℚ) :
    (rawMaxX innerWidth centerX < rawMinX innerWidth centerX →
      (mkConfig innerWidth innerHeight centerX centerY).safeMinX =
        (rawMinX innerWidth centerX + rawMaxX innerWidth centerX) / 2 ∧
      (mkConfig innerWidth innerHeight centerX centerY).safeMaxX =
        (rawMinX innerWidth centerX + rawMaxX innerWidth centerX) / 2) ∧
    (rawMaxY innerWidth innerHeight centerY < rawMinY innerWidth centerY →
      (mkConfig innerWidth innerHeight centerX centerY).safeMinY =
        (rawMinY innerWidth centerY + rawMaxY innerWidth innerHeight centerY) / 2 ∧
      (mkConfig innerWidth innerHeight centerX centerY).safeMaxY =
        (rawMinY innerWidth centerY + rawMaxY innerWidth innerHeight centerY) / 2) ∧
    ∀ (rng : Nat → ℚ) (count : Nat),
      (generateScatter (mkConfig innerWidth innerHeight centerX centerY) rng count).length =
        count := by
  refine ⟨?_, ?_, ?_⟩
  · intro hx
    constructor <;> simp [mkConfig, not_le.mpr hx]
  · intro hy
    constructor <;> simp [mkConfig, not_le.mpr hy]
  · intro rng count
    unfold generateScatter
    simpa using scatterAux_length (mkConfig innerWidth innerHeight centerX centerY)
      rng count [] 0

/-! ### Concrete scatter runs for the witnesses -/

/-- Witness configuration: fully collapsed ranges, zero minimum
separation (every candidate is clear). -/
def cfgW : ScatterConfig := ⟨0, 0, 0, 0, 0⟩

/-- Witness configuration: collapsed ranges with minimum separation `1`
(no candidate is ever clear of an occupied origin). -/
def cfgF : ScatterConfig := ⟨0, 0, 0, 0, 1⟩

/-- Witness random stream: constantly `0`. -/
def rngW : Nat → ℚ := fun _ => 0

/-- Witness occupied position at the origin. -/
def posF : List Candidate := [⟨0, 0, 0⟩]

/-- With zero minimum separation every candidate is clear. -/
lemma isClear_minDistance_zero (positions : List Candidate) (c : Candidate) :
    isClear positions 0 c = true := by
  rw [isClear_iff]
  intro pos _
  have h0 : (0 : ℚ) ^ 2 = 0 := by norm_num
  rw [h0]
  unfold dist2
  positivity

/-- One unfolding step of the attempt loop. -/
lemma placeOneAux_succ (cfg : ScatterConfig) (rng : Nat → ℚ) (positions : List Candidate)
    (k fuel : Nat) :
    placeOneAux cfg rng positions k (fuel + 1) =
      if isClear positions cfg.minDistance (mkCandidate cfg rng k) then
        (some (mkCandidate cfg rng k), k + 3)
      else placeOneAux cfg rng positions (k + 3) fuel := rfl

/-- With zero minimum separation the very first attempt is accepted. -/
lemma placeOneAux_firstAccept (cfg : ScatterConfig) (hmd : cfg.minDistance = 0)
    (rng : Nat → ℚ) (positions : List Candidate) (k : Nat) :
    placeOneAux cfg rng positions k maxAttempts = (some (mkCandidate cfg rng k), k + 3) := by
  rw [show maxAttempts = 599 + 1 from rfl, placeOneAux_succ, hmd,
    if_pos (isClear_minDistance_zero positions (mkCandidate cfg rng k))]

/-- With zero minimum separation every piece is accepted within budget. -/
lemma budgetOk_minDistance_zero (cfg : ScatterConfig) (hmd : cfg.minDistance = 0)
    (rng : Nat → ℚ) : ∀ (n : Nat) (positions : List Candidate) (k : Nat),
      budgetOk cfg rng n positions k = true := by
  intro n
  induction n with
  | zero => intro positions k; rfl
  | succ n ih =>
      intro positions k
      unfold budgetOk
      rw [placeOneAux_firstAccept cfg hmd rng positions k]
      exact ih _ _

/-- Witness for `C7_scatter_min_separation`: with collapsed ranges and no
separation requirement, the first piece's candidate is accepted on the
first attempt and a two-piece run stays within budget. -/
theorem C7_witness :
    placeOneAux cfgW rngW [] 0 maxAttempts = (some (mkCandidate cfgW rngW 0), 3) ∧
    budgetOk cfgW rngW 2 [] 0 = true ∧
    ((∃ j, j < maxAttempts ∧
        mkCandidate cfgW rngW 0 = mkCandidate cfgW rngW (0 + 3 * j) ∧
        3 = 0 + 3 * j + 3 ∧
        isClear [] cfgW.minDistance (mkCandidate cfgW rngW 0) = true ∧
        ∀ i, i < j →
          isClear [] cfgW.minDistance (mkCandidate cfgW rngW (0 + 3 * i)) = false) ∧
      List.Pairwise (fun a b => cfgW.minDistance ^ 2 ≤ dist2 a b)
        (generateScatter cfgW rngW 2)) := by
  have h1 : placeOneAux cfgW rngW [] 0 maxAttempts = (some (mkCandidate cfgW rngW 0), 3) := by
    simpa using placeOneAux_firstAccept cfgW rfl rngW [] 0
  have h2 : budgetOk cfgW rngW 2 [] 0 = true :=
    budgetOk_minDistance_zero cfgW rfl rngW 2 [] 0
  exact ⟨h1, h2, C7_scatter_min_separation cfgW rngW [] 0 maxAttempts _ 3 2 h1 h2⟩

/-- Against an occupied origin, the constant-zero stream's candidate is
never clear when the minimum separation is `1`. -/
lemma neverClear (j : Nat) :
    isClear posF cfgF.minDistance (mkCandidate cfgF rngW j) = false := by
  simp [isClear, posF, cfgF, mkCandidate, rand, rngW, dist2]

/-- The attempt loop for the crowded witness run exhausts all its fuel. -/
lemma placeOneAux_neverClear :
    ∀ (fuel k : Nat), placeOneAux cfgF rngW posF k fuel = (none, k + 3 * fuel) := by
  intro fuel
  induction fuel with
  | zero => intro k; simp [placeOneAux]
  | succ fuel ih =>
      intro k
      unfold placeOneAux
      rw [if_neg (by simp [neverClear k])]
      have harith : k + 3 + 3 * fuel = k + 3 * (fuel + 1) := by ring
      rw [ih (k + 3), harith]

/-- Witness for `C8_scatter_total`: a run whose 600 attempts all fail
(origin occupied, separation 1, all candidates at the origin). -/
theorem C8_witness :
    placeOneAux cfgF rngW posF 0 maxAttempts = (none, 1800) ∧
    (placeOne cfgF rngW posF 0 = (mkCandidate cfgF rngW 1800, 1800 + 3) ∧
     ∀ (cfg' : ScatterConfig) (rng' : Nat → ℚ) (count : Nat),
       (generateScatter cfg' rng' count).length = count) := by
  have h : placeOneAux cfgF rngW posF 0 maxAttempts = (none, 1800) := by
    have h0 := placeOneAux_neverClear maxAttempts 0
    simpa [maxAttempts] using h0
  exact ⟨h, C8_scatter_total cfgF rngW posF 0 1800 h⟩

/-- Witness for `C9_degenerate_viewport`: a 0×0 viewport collapses both
axes to their midpoints, and the run still yields 16 entries. -/
theorem C9_witness :
    rawMaxX 0 0 < rawMinX 0 0 ∧
    rawMaxY 0 0 0 < rawMinY 0 0 ∧
    ((mkConfig 0 0 0 0).safeMinX = (rawMinX 0 0 + rawMaxX 0 0) / 2 ∧
     (mkConfig 0 0 0 0).safeMaxX = (rawMinX 0 0 + rawMaxX 0 0) / 2) ∧
    ((mkConfig 0 0 0 0).safeMinY = (rawMinY 0 0 + rawMaxY 0 0 0) / 2 ∧
     (mkConfig 0 0 0 0).safeMaxY = (rawMinY 0 0 + rawMaxY 0 0 0) / 2) ∧
    (generateScatter (mkConfig 0 0 0 0) rngW 16).length = 16 := by
  have hx : rawMaxX 0 0 < rawMinX 0 0 := by
    norm_num [rawMinX, rawMaxX, padding, pieceVisualSizeOf, pieceSizeOf, svgScale, tabRadius]
  have hy : rawMaxY 0 0 0 < rawMinY 0 0 := by
    norm_num [rawMinY, rawMaxY, padding, pieceVisualSizeOf, pieceSizeOf, svgScale, tabRadius]
  exact ⟨hx, hy, (C9_degenerate_viewport 0 0 0 0).1 hx,
    (C9_degenerate_viewport 0 0 0 0).2.1 hy,
    (C9_degenerate_viewport 0 0 0 0).2.2 rngW 16⟩

end Valentine
